import Mathlib

/-!
Verification development for the `usmle` ingestion pipeline scripts.

Shallow embedding conventions:
* Python `bytes` and `str` code-point sequences are modelled as `List Nat`
  (one entry per byte / code point); ASCII-level operations (`.lower()`,
  `.upper()`, `.strip()`, `.split()`) are modelled on those lists, with the
  ASCII whitespace set `[ \t\n\r\x0b\x0c]` standing in for Python's `\s`.
* Short literal tags and report labels are kept as Lean `String`s where the
  code only ever compares them for equality.
* Network responses are modelled as an environment `Provider → Resp` passed
  to the fetch chain; `requests.get` for provider `p` is `env p`.
* XML element trees (`xml.etree.ElementTree`) are modelled as the nested
  inductive `Elem` (tag, text, children, tail).
-/

namespace Usmle

/-! ### Shared text primitives (Python `bytes`/`str` on `List Nat`) -/

/-- ASCII lowering of one byte, as done by Python `bytes.lower()`. -/
def byteLower (n : Nat) : Nat := if 65 ≤ n ∧ n ≤ 90 then n + 32 else n

/-- Model of `content.lower()` on a byte string. -/
def lowerBytes (l : List Nat) : List Nat := l.map byteLower

/-- Whether `pat` occurs at the start of `l` (the Python `startswith` test). -/
def leadsWith : List Nat → List Nat → Bool
  | [], _ => true
  | _ :: _, [] => false
  | p :: ps, x :: xs => (p == x) && leadsWith ps xs

/-- Model of `pat in l` for byte strings: `pat` occurs contiguously somewhere in `l`. -/
def containsSeq (pat : List Nat) : List Nat → Bool
  | [] => pat.isEmpty
  | x :: xs => leadsWith pat (x :: xs) || containsSeq pat xs

/-- Code points of a concrete ASCII literal, for writing byte strings. -/
def strB (s : String) : List Nat := s.toList.map Char.toNat

/-! ### `scripts/fetch_pmc_xml.py`: the three-provider fallback chain -/

/-- One HTTP response as seen by a provider fetch function. -/
structure Resp where
  status : Nat
  content : List Nat
  url : String
deriving DecidableEq

/-- The fixed provider list of `fetch_pmc_xml.py`. -/
inductive Provider where
  | EuropePMC
  | NCBIefetch
  | PMCsite
deriving DecidableEq

/-- Model of `b"<html"`. -/
def htmlTag : List Nat := strB "<html"

/-- Model of `is_valid_xml`: the first 500 bytes, lowercased, must contain one of the
XML markers `<xml`, `<article`, `<pmc-articleset`. -/
def is_valid_xml (content : List Nat) : Bool :=
  let head := lowerBytes (content.take 500)
  containsSeq (strB "<xml") head || containsSeq (strB "<article") head ||
    containsSeq (strB "<pmc-articleset") head

/-- Model of `fetch_from_europe_pmc`: accept any HTTP 200 with non-empty payload. -/
def fetch_from_europe_pmc (r : Resp) : Bool × Option (List Nat) × String :=
  if r.status == 200 && !r.content.isEmpty then
    (true, some r.content, "Europe PMC fullTextXML (" ++ r.url ++ ")")
  else
    (false, none, "Europe PMC failed: HTTP " ++ toString r.status ++ " (" ++ r.url ++ ")")

/-- Model of `fetch_from_ncbi_efetch`: additionally reject payloads whose first 200
bytes (lowercased) contain `b"<html"`. -/
def fetch_from_ncbi_efetch (r : Resp) : Bool × Option (List Nat) × String :=
  if r.status == 200 && !r.content.isEmpty then
    if containsSeq htmlTag (lowerBytes (r.content.take 200)) then
      (false, none, "NCBI efetch returned HTML error payload")
    else
      (true, some r.content, "NCBI efetch (" ++ r.url ++ ")")
  else
    (false, none, "NCBI efetch failed: HTTP " ++ toString r.status ++ " (" ++ r.url ++ ")")

/-- Model of `fetch_from_pmc_site`: accept any HTTP 200 with non-empty payload. -/
def fetch_from_pmc_site (r : Resp) : Bool × Option (List Nat) × String :=
  if r.status == 200 && !r.content.isEmpty then
    (true, some r.content, "PMC site format=xml (" ++ r.url ++ ")")
  else
    (false, none, "PMC site failed: HTTP " ++ toString r.status ++ " (" ++ r.url ++ ")")

/-- Dispatch to the provider's fetch function. -/
def providerFetch : Provider → Resp → Bool × Option (List Nat) × String
  | .EuropePMC => fetch_from_europe_pmc
  | .NCBIefetch => fetch_from_ncbi_efetch
  | .PMCsite => fetch_from_pmc_site

/-- The acceptance test of the loop body of `fetch_pmc_xml`, on a provider
result: `if ok and content and is_valid_xml(content)`. -/
def acceptedTriple : Bool × Option (List Nat) × String → Bool
  | (true, some c, _) => !c.isEmpty && is_valid_xml c
  | _ => false

/-- Whether provider `p`'s attempt on response `r` is accepted. -/
def accepted (p : Provider) (r : Resp) : Bool :=
  acceptedTriple (providerFetch p r)

/-- Content returned by a provider attempt (meaningful when `accepted`). -/
def attemptContent (p : Provider) (r : Resp) : List Nat :=
  ((providerFetch p r).2.1).getD []

/-- Provenance message returned by a provider attempt. -/
def attemptMsg (p : Provider) (r : Resp) : String :=
  (providerFetch p r).2.2

/-- The `for name, fn, min_kb in attempts` loop of `fetch_pmc_xml`:
returns the first accepted payload together with its provenance message,
and the ordered trace of providers that were actually invoked.
`none` models the final `raise RuntimeError`. -/
def fetchLoop (env : Provider → Resp) : List Provider → Option (List Nat × String) × List Provider
  | [] => (none, [])
  | p :: rest =>
    if accepted p (env p) then
      (some (attemptContent p (env p), attemptMsg p (env p)), [p])
    else
      let r := fetchLoop env rest
      (r.1, p :: r.2)

/-- The fixed attempt order of `fetch_pmc_xml`. -/
def attemptOrder : List Provider := [.EuropePMC, .NCBIefetch, .PMCsite]

/-- Model of `fetch_pmc_xml` given the network environment `env`. -/
def fetch_pmc_xml (env : Provider → Resp) : Option (List Nat × String) × List Provider :=
  fetchLoop env attemptOrder

/-! ### Python `str` primitives on Lean `String` (ASCII whitespace model) -/

/-- Python `\s` (ASCII fragment): space, tab, newline, carriage return,
vertical tab, form feed. -/
def isWsC (c : Char) : Bool :=
  c == ' ' || c == '\t' || c == '\n' || c == '\r' || c == '\x0b' || c == '\x0c'

/-- Python `s.strip()`. -/
def stripS (s : String) : String :=
  ⟨List.rdropWhile isWsC (List.dropWhile isWsC s.toList)⟩

/-- Helper for `s.split()`: accumulate the current word (reversed) while
walking the characters. -/
def wordsAux (acc : List Char) : List Char → List (List Char)
  | [] => if acc.isEmpty then [] else [acc.reverse]
  | c :: cs =>
    if isWsC c then (if acc.isEmpty then [] else [acc.reverse]) ++ wordsAux [] cs
    else wordsAux (c :: acc) cs

/-- Python `s.split()` (split on whitespace runs, dropping empty pieces). -/
def pySplit (s : String) : List String :=
  (wordsAux [] s.toList).map fun l => ⟨l⟩

/-- Model of `len(s.split()) if s else 0` (`word_count` / `wc`). -/
def word_count (s : String) : Nat := (pySplit s).length

/-- Model of `re.sub(r"\s+", " ", s).strip()`: collapse whitespace runs and trim;
equal to joining `s.split()` with single spaces. -/
def normWsS (s : String) : String := String.intercalate " " (pySplit s)

/-! ### Quality classification
(`summarize_extraction` in `extract_pmc_text.py`, the classify block of
`audit_fulltext_coverage.py::main`) -/

/-- The `row["status"]` classification of `audit_fulltext_coverage.py`. -/
def audit_classify (abstract_words body_words : Nat) : String :=
  if 200 ≤ body_words then "OK_FULLTEXT"
  else if 80 ≤ abstract_words ∨ 80 ≤ body_words then "SHORT_TEXT"
  else "TOO_LITTLE_TEXT"

/-- The `quality` selection inside `summarize_extraction`. -/
def summarize_quality (abs_wc body_wc : Nat) : String :=
  if 200 ≤ body_wc then "body_text_available"
  else if 80 ≤ abs_wc ∨ 80 ≤ body_wc then "abstract_only_or_short_body"
  else "too_little_text"

/-- Model of `summarize_extraction(abstract, body)`: the full report line. -/
def summarize_extraction (abstract body : String) : String :=
  let abs_wc := word_count abstract
  let body_wc := word_count body
  "abstract_words=" ++ toString abs_wc ++ ", body_words=" ++ toString body_wc ++
    ", quality=" ++ summarize_quality abs_wc body_wc

/-! ### Identifier normalization (`normalize_pmcid`)
Code points are modelled as `Nat`. -/

/-- ASCII whitespace on code points. -/
def isWsN (n : Nat) : Bool :=
  decide (n = 32 ∨ n = 9 ∨ n = 10 ∨ n = 13 ∨ n = 11 ∨ n = 12)

/-- Python `str.upper()` on one code point (ASCII fragment). -/
def upN (n : Nat) : Nat := if 97 ≤ n ∧ n ≤ 122 then n - 32 else n

/-- Model of `s.strip()` on code-point lists. -/
def pyStrip (l : List Nat) : List Nat :=
  List.rdropWhile isWsN (List.dropWhile isWsN l)

/-- Model of `s.upper()` on code-point lists. -/
def pyUpper (l : List Nat) : List Nat := l.map upN

/-- The code points of `"PMC"` (`P` = 80, `M` = 77, `C` = 67). -/
def pmcTag : List Nat := [80, 77, 67]

/-- The final step of `normalize_pmcid`: add the `PMC` marker at the front
when it is missing (`if not pmcid.startswith("PMC"): pmcid = f"PMC{pmcid}"`). -/
def pmcStamp (t : List Nat) : List Nat :=
  if leadsWith pmcTag t then t else pmcTag ++ t

/-- Model of `normalize_pmcid` as in `fetch_pmc_xml.py`, `fetch_pmc_xml_full.py` and
`extract_pmc_text.py`: strip, uppercase, then add the `PMC` marker at the
front when missing. -/
def normalize_pmcid (l : List Nat) : List Nat :=
  pmcStamp (pyUpper (pyStrip l))

/-- Model of `normalize_pmcid` as in `audit_fulltext_coverage.py`: additionally maps
a blank input to the empty string before the marker check. -/
def normalize_pmcid_audit (l : List Nat) : List Nat :=
  if (pyUpper (pyStrip l)).isEmpty then []
  else pmcStamp (pyUpper (pyStrip l))

/-- ASCII decimal digit code point. -/
def isDigitN (n : Nat) : Bool := decide (48 ≤ n ∧ n ≤ 57)

/-- The identifier shape `^PMC[0-9]+$`: the `PMC` marker followed by a
non-empty run of digits. -/
def canonicalPMC (l : List Nat) : Bool :=
  leadsWith pmcTag l && !(l.drop 3).isEmpty && (l.drop 3).all isDigitN

/-- Blank input: empty or whitespace-only. -/
def isBlank (l : List Nat) : Bool := l.all isWsN

/-- The part of an identifier after an optional leading `PMC` marker. -/
def pmcRest (t : List Nat) : List Nat :=
  if leadsWith pmcTag t then t.drop 3 else t

/-! ### XML element model and `extract_pmc_text.py` body extraction -/

/-- An `xml.etree.ElementTree.Element`: tag, `.text`, children, `.tail`. -/
inductive Elem where
  | mk (tag : String) (txt : String) (children : List Elem) (tail : String)

/-- The element's tag. -/
def Elem.tagOf : Elem → String
  | .mk t _ _ _ => t

/-- The element's `.tail` text. -/
def Elem.tailOf : Elem → String
  | .mk _ _ _ tl => tl

mutual

/-- Model of `"".join(e.itertext())`: the element's `.text`, then recursively each
child's `itertext` followed by that child's `.tail`. -/
def itertext : Elem → String
  | .mk _ tx ch _ => tx ++ itertextIn ch

/-- Model of `itertext` over a child list. -/
def itertextIn : List Elem → String
  | [] => ""
  | c :: cs => itertext c ++ Elem.tailOf c ++ itertextIn cs

end

mutual

/-- Model of `e.findall(".//t")`: all strict descendants with tag `t`, in document
order. -/
def findallDesc (t : String) : Elem → List Elem
  | .mk _ _ ch _ => findallDescIn t ch

/-- Model of `findall(".//t")` over a forest: each matching node first, then its
descendants, then the later siblings. -/
def findallDescIn (t : String) : List Elem → List Elem
  | [] => []
  | c :: cs => (if Elem.tagOf c == t then [c] else []) ++ findallDesc t c ++ findallDescIn t cs

end

/-- Model of `collect_text_from_nodes`: normalize each node's flattened text, keep
the non-empty ones, join with blank lines, strip. -/
def collect_text_from_nodes (nodes : List Elem) : String :=
  stripS (String.intercalate "\n\n"
    ((nodes.map fun n => normWsS (itertext n)).filter fun s => s != ""))

/-- Model of `find_body_paragraphs` (= `extract_body` in the audit script): body
paragraphs, else flattened body, else section paragraphs, else `""`. -/
def find_body_paragraphs (root : Elem) : String :=
  if !(findallDesc "body" root).isEmpty then
    if !((findallDesc "body" root).flatMap fun b => findallDesc "p" b).isEmpty then
      collect_text_from_nodes ((findallDesc "body" root).flatMap fun b => findallDesc "p" b)
    else collect_text_from_nodes (findallDesc "body" root)
  else
    if !(findallDesc "sec" root).isEmpty then
      if !((findallDesc "sec" root).flatMap fun sc => findallDesc "p" sc).isEmpty then
        collect_text_from_nodes ((findallDesc "sec" root).flatMap fun sc => findallDesc "p" sc)
      else ""
    else ""

/-! ### `scripts/convert_ready_to_seed_minimal.py` (the batch reshaper) -/

/-- A choice of the pipeline "ready" format (`is_correct` flag). -/
structure InChoice where
  label : String
  text : String
  is_correct : Bool
  explanation : String
deriving DecidableEq

/-- The `educational_blocks` dict (absent keys as `none`). -/
structure Blocks where
  educational_objective : Option String
  bottom_line : Option String
  exam_tip : Option String
deriving DecidableEq

/-- The `question` dict of a ready item (absent keys as `none`). -/
structure InQuestion where
  stem : String
  difficulty : Option Int
  prompt : Option String
  bibliography : Option String
  educational_blocks : Blocks
deriving DecidableEq

/-- One item of `ready.json`'s `questions[]`. -/
structure InItem where
  question : InQuestion
  choices : List InChoice
deriving DecidableEq

/-- Model of `map_difficulty`: `n <= 2 → easy`, `n == 3 → medium`, else `hard`. -/
def map_difficulty (n : Int) : String :=
  if n ≤ 2 then "easy" else if n = 3 then "medium" else "hard"

/-- Model of `build_explanations`: short = bottom line (with fallback), long =
objective + bottom line + exam tip joined by blank lines. -/
def build_explanations (b : Blocks) : String × String :=
  let obj := stripS (b.educational_objective.getD "")
  let bottom0 := stripS (b.bottom_line.getD "")
  let tip := stripS (b.exam_tip.getD "")
  let bottom :=
    if bottom0 == "" then
      "Review the core mechanism and use discriminating clues to eliminate distractors."
    else bottom0
  let parts := [obj, bottom, tip].filter fun p => p != ""
  (bottom, if parts.isEmpty then bottom else String.intercalate "\n\n" parts)

/-- Model of `normalize_prompt`: `None → ""`, else `str(raw).strip()`. -/
def normalize_prompt : Option String → String
  | none => ""
  | some s => stripS s

/-- A choice of the backend seed-minimal contract (`correct` flag). -/
structure OutChoice where
  label : String
  text : String
  correct : Bool
  explanation : String
deriving DecidableEq

/-- One question of the backend seed-minimal contract: `prompt` is a plain
string (never null by construction). -/
structure OutQuestion where
  stem : String
  difficulty : String
  explanation_short : String
  explanation_long : String
  bibliography : Option String
  prompt : String
  choices : List OutChoice
deriving DecidableEq

/-- The `out_q = {...}` construction in the reshaper's `main` loop. -/
def convert_item (item : InItem) : OutQuestion :=
  let e := build_explanations item.question.educational_blocks
  { stem := stripS item.question.stem
    difficulty := map_difficulty (item.question.difficulty.getD 3)
    explanation_short := e.1
    explanation_long := e.2
    bibliography := item.question.bibliography
    prompt := normalize_prompt item.question.prompt
    choices := item.choices.map fun c =>
      { label := c.label
        text := stripS c.text
        correct := c.is_correct
        explanation := stripS c.explanation } }

/-- Model of `assert_valid_question`: the backend structural invariants, checked in
source order; `.error` models the raised `ValueError`. -/
def assert_valid_question (q : OutQuestion) : Except String Unit :=
  if ¬(4 ≤ q.choices.length ∧ q.choices.length ≤ 5) then
    .error "Question must have 4 or 5 choices."
  else if (q.choices.filter fun c => c.correct).length ≠ 1 then
    .error "Question must have exactly 1 correct choice."
  else if (q.choices.map fun c => c.label).dedup.length ≠ (q.choices.map fun c => c.label).length then
    .error "Choice labels must be unique."
  else if q.choices.any fun c => stripS c.explanation == "" then
    .error "Each choice must include a non-empty explanation."
  else .ok ()

/-- The reshaper's `main` loop over `questions[]`: convert each item,
validate it, and abort (writing nothing) on the first invalid one. -/
def convert_main : List InItem → Except String (List OutQuestion)
  | [] => .ok []
  | it :: rest =>
    match assert_valid_question (convert_item it) with
    | .error e => .error e
    | .ok _ =>
      match convert_main rest with
      | .error e => .error e
      | .ok qs => .ok (convert_item it :: qs)

/-! ### `scripts/build_choices_and_explanations.py` (stem/choice synthesis) -/

/-- Python `pat in s` on strings (code-point model). -/
def containsStr (hay pat : String) : Bool := containsSeq (strB pat) (strB hay)

/-- Python `s.lower()` (ASCII fragment). -/
def lowerS (s : String) : String := ⟨s.toList.map Char.toLower⟩

/-- Model of `is_placeholder`. -/
def is_placeholder (s : String) : Bool := containsStr s "[PLACEHOLDER]"

/-- Model of `any(k in s for k in ks)`. -/
def anyIn (s : String) (ks : List String) : Bool := ks.any fun k => containsStr s k

/-- The `expected` label list of `ensure_choice_labels`. -/
def expectedLabels : List String := ["A", "B", "C", "D", "E"]

/-- Model of `ensure_choice_labels`: position `i` gets label `expected[i]` when
`i < 5`; later positions keep their existing label. -/
def ensure_choice_labels (choices : List InChoice) : List InChoice :=
  choices.enum.map fun p =>
    if p.1 < expectedLabels.length then
      { p.2 with label := expectedLabels.getD p.1 "" }
    else p.2

/-- Model of `pick_discipline_hint`. -/
def pick_discipline_hint (stem : String) : String :=
  let s := lowerS stem
  if anyIn s ["murmur", "petechiae", "cardiac", "heart", "endocard"] then "cardio"
  else if anyIn s ["jaundice", "bilirubin", "ast", "alt", "ruq", "hepat"] then "gi_hepato"
  else if anyIn s ["crackles", "lung", "rr", "wheeze", "asthma"] then "pulm"
  else if anyIn s ["hyponatremia", "hyperkalemia", "cortisol", "aldosterone", "adrenal"] then "endo"
  else if anyIn s ["proteinuria", "creatinine", "renal", "kidney"] then "renal"
  else "general"

/-- The `pools` dict of `build_choice_set`, with the `.get(discipline,
pools["general"])` default. -/
def poolFor (discipline : String) : List String :=
  if discipline == "cardio" then
    ["Vegetations on the cardiac valves due to infective endocarditis",
     "Aortic dissection involving the ascending aorta",
     "Rheumatic fever causing mitral stenosis",
     "Hypertrophic cardiomyopathy with outflow obstruction",
     "Pericardial tamponade with pulsus paradoxus"]
  else if discipline == "gi_hepato" then
    ["Obstruction of the common bile duct causing conjugated hyperbilirubinemia",
     "Hemolysis leading to unconjugated hyperbilirubinemia",
     "Autoimmune hepatitis mediated by autoreactive T cells",
     "Primary sclerosing cholangitis associated with inflammatory bowel disease",
     "Gilbert syndrome due to reduced UDP-glucuronosyltransferase activity"]
  else if discipline == "pulm" then
    ["Ventilation-perfusion mismatch due to airway obstruction",
     "Diffusion impairment due to interstitial fibrosis",
     "Right-to-left shunt from intracardiac defect",
     "Hypoventilation due to central respiratory depression",
     "Pulmonary embolism causing increased dead space ventilation"]
  else if discipline == "endo" then
    ["Primary adrenal insufficiency causing low cortisol and low aldosterone",
     "Hyperthyroidism due to thyroid-stimulating immunoglobulins",
     "Type 1 diabetes mellitus due to autoimmune beta-cell destruction",
     "SIADH causing euvolemic hyponatremia",
     "Pheochromocytoma causing episodic catecholamine release"]
  else if discipline == "renal" then
    ["Glomerular basement membrane damage leading to proteinuria",
     "Renal artery stenosis causing secondary hyperaldosteronism",
     "Acute tubular necrosis due to ischemic injury",
     "Post-streptococcal glomerulonephritis due to immune complex deposition",
     "Nephrolithiasis due to hypercalciuria"]
  else
    ["Type IV hypersensitivity mediated by T cells",
     "Type II hypersensitivity mediated by IgG against cell-surface antigens",
     "Type I hypersensitivity mediated by IgE and mast-cell degranulation",
     "Type III hypersensitivity mediated by immune complex deposition",
     "Defective DNA mismatch repair causing microsatellite instability"]

/-- Model of `build_choice_set`: keep the correct text at index 1 and lay the
shuffled distractors around it.  `random.shuffle` is modelled by the
explicit `shuffle` argument. -/
def build_choice_set (shuffle : List String → List String) (discipline : String) :
    List String × Nat :=
  let opts := poolFor discipline
  let correct_text := opts.getD 1 ""
  let distractors := (opts.enum.filter fun p => p.1 != 1).map fun p => p.2
  let ds := shuffle distractors
  ([ds.getD 0 "", correct_text, ds.getD 1 "", ds.getD 2 "", ds.getD 3 ""], 1)

/-- Model of `_stem_signal`. -/
def stem_signal (stem : String) : String :=
  let s := lowerS stem
  let signals :=
    (if anyIn s ["fever", "temp", "102", "39"] then ["systemic inflammation/fever"] else []) ++
    (if anyIn s ["bp", "98/62", "hypotens", "shock"] then ["hemodynamic instability"] else []) ++
    (if anyIn s ["anemia", "ldh"] then ["evidence of cell turnover/hemolysis"] else []) ++
    (if anyIn s ["diabetes"] then ["immunometabolic risk factors"] else []) ++
    (if anyIn s ["weakness", "proximal"] then ["proximal weakness pattern"] else []) ++
    (if anyIn s ["hyperpigmented", "hyperpigment"] then ["pigmentation changes"] else [])
  if signals.isEmpty then "the key discriminating clues"
  else String.intercalate ", " (signals.take 2)

/-- The keyword dispatch of `_choice_specific_wrong_rationale`, with
`ct = chosen_text.lower()` and `sig = _stem_signal(stem)` already
computed. -/
def wrong_rationale_core (ct sig : String) : String :=
  if containsStr ct "ventilation-perfusion" || containsStr ct "v/q" ||
      containsStr ct "airway obstruction" then
    "This mechanism can cause hypoxemia, but it would typically track with airway symptoms and does not best fit " ++ sig ++ "."
  else if containsStr ct "diffusion" || containsStr ct "interstitial fibrosis" then
    "Diffusion limitation is classically linked to interstitial lung disease patterns; the vignette’s " ++ sig ++ " makes this less unifying."
  else if containsStr ct "right-to-left shunt" || containsStr ct "intracardiac" then
    "A right-to-left shunt leads to hypoxemia that is often refractory to oxygen; that pattern is not suggested by " ++ sig ++ "."
  else if containsStr ct "hypoventilation" || containsStr ct "central respiratory depression" then
    "Central hypoventilation would be associated with elevated CO₂ and depressed drive; this does not align well with " ++ sig ++ "."
  else if containsStr ct "pulmonary embolism" || containsStr ct "dead space" then
    "PE increases dead space and can cause tachycardia/pleuritic symptoms; the overall picture is not best explained by " ++ sig ++ "."
  else if containsStr ct "endocarditis" || containsStr ct "vegetations" then
    "Endocarditis would be expected to show a stronger infectious focus (e.g., persistent bacteremia or classic stigmata); that’s not anchored by " ++ sig ++ "."
  else if containsStr ct "aortic dissection" then
    "Aortic dissection is typically abrupt with tearing pain and pulse/BP differentials; the vignette’s " ++ sig ++ " does not point there."
  else if containsStr ct "rheumatic" || containsStr ct "mitral stenosis" then
    "Rheumatic mitral disease is a chronic sequela; the time course and " ++ sig ++ " are not characteristic."
  else if containsStr ct "hypertrophic" || containsStr ct "outflow" then
    "HOCM causes exertional symptoms and dynamic murmurs; it does not unify " ++ sig ++ " in this presentation."
  else if containsStr ct "tamponade" || containsStr ct "pulsus paradoxus" then
    "Tamponade would feature JVD, muffled heart sounds, and pulsus paradoxus; those specific clues are not reflected in " ++ sig ++ "."
  else if containsStr ct "common bile duct" || containsStr ct "conjugated hyperbilirubinemia" then
    "Extrahepatic obstruction would more strongly suggest cholestatic findings (e.g., pale stools/pruritus); that is not supported by " ++ sig ++ "."
  else if containsStr ct "hemolysis" || containsStr ct "unconjugated" then
    "Hemolysis would typically present with a clear hemolytic pattern; while possible, it does not best unify " ++ sig ++ "."
  else if containsStr ct "autoimmune hepatitis" then
    "Autoimmune hepatitis would often align with specific serologies and hepatocellular enzyme patterns; the vignette’s " ++ sig ++ " is not pointing there."
  else if containsStr ct "primary sclerosing cholangitis" then
    "PSC is linked to IBD and cholestatic labs; that broader context is not suggested by " ++ sig ++ "."
  else if containsStr ct "gilbert" || containsStr ct "udp-glucuronosyltransferase" then
    "Gilbert syndrome is benign and intermittent; it would not explain a more systemic picture like " ++ sig ++ "."
  else if containsStr ct "adrenal insufficiency" || containsStr ct "low cortisol" then
    "Primary adrenal insufficiency has a distinct endocrine pattern; this option does not clearly reconcile " ++ sig ++ " as written."
  else if containsStr ct "hyperthyroidism" || containsStr ct "thyroid-stimulating immunoglobulins" then
    "Hyperthyroidism would be expected to show thyrotoxic features (weight loss, tremor, heat intolerance); those are not anchored by " ++ sig ++ "."
  else if containsStr ct "type 1 diabetes" || containsStr ct "beta-cell" then
    "Type 1 DM is a strong distractor, but the vignette already frames diabetes as background; it does not specifically explain " ++ sig ++ "."
  else if containsStr ct "siadh" || containsStr ct "hyponatremia" then
    "SIADH centers on hyponatremia and volume status; it does not directly unify " ++ sig ++ " in this case."
  else if containsStr ct "pheochromocytoma" || containsStr ct "catecholamine" then
    "Pheochromocytoma causes episodic headaches/sweating/palpitations with hypertension; that conflicts with " ++ sig ++ "."
  else if containsStr ct "glomerular basement membrane" || containsStr ct "proteinuria" then
    "Proteinuric syndromes have a renal-predominant picture; they do not best integrate " ++ sig ++ " in the vignette."
  else if containsStr ct "renal artery stenosis" || containsStr ct "hyperaldosteronism" then
    "RAS typically drives hypertension/renin-angiotensin activation; the hemodynamic context implied by " ++ sig ++ " does not favor it."
  else if containsStr ct "acute tubular necrosis" || containsStr ct "ischemic" then
    "ATN is usually framed by a clear ischemic/toxic insult with renal findings; it does not unify " ++ sig ++ " here."
  else if containsStr ct "post-streptococcal" || containsStr ct "immune complex" then
    "PSGN classically follows infection with hematuria and complement changes; that pattern is not suggested by " ++ sig ++ "."
  else if containsStr ct "nephrolithiasis" || containsStr ct "hypercalciuria" then
    "Nephrolithiasis presents with colicky flank pain/hematuria; it does not explain " ++ sig ++ "."
  else
    "This is a plausible distractor, but it does not fully explain " ++ sig ++ " or would be expected to produce a different set of findings."

/-- Model of `_choice_specific_wrong_rationale`: a per-distractor "why wrong" text
selected by keywords of the lowercased choice text, always mentioning the
stem signal. -/
def wrong_rationale (chosen_text stem : String) : String :=
  wrong_rationale_core (lowerS chosen_text) (stem_signal stem)

/-- Model of `explain_choice`: the fixed unifying text for the correct choice, a
keyword-selected rationale for a wrong one. -/
def explain_choice (correct : Bool) (chosen_text stem : String) : String :=
  if correct then
    "This option best matches the pattern described in the vignette. It provides a unifying mechanism that explains the key clinical features and labs."
  else wrong_rationale chosen_text stem

/-- The dedup suffix hint: whitespace-normalized choice text truncated at 80
code points (with a trailing ellipsis when truncated). -/
def hintOf (text : String) : String :=
  let h := (normWsS text).toList
  String.mk (h.take 80) ++ (if 80 < h.length then "…" else "")

/-- The anti-duplication pass over filled choices (`seen` dict as a list of
already-seen stripped explanations). -/
def dedup_explanations (seen : List String) : List InChoice → List InChoice
  | [] => []
  | ch :: rest =>
    if seen.contains (stripS ch.explanation) then
      { ch with explanation :=
          stripS ch.explanation ++ " (Note: this choice focuses on: " ++
            hintOf ch.text ++ ")" } ::
        dedup_explanations seen rest
    else ch :: dedup_explanations (stripS ch.explanation :: seen) rest

/-- The `for i, ch in enumerate(choices)` fill loop: set text, correctness
flag and explanation per position. -/
def fill_choices (texts : List String) (correct_idx : Nat) (stem : String)
    (choices : List InChoice) : List InChoice :=
  choices.enum.map fun p =>
    let t := texts.getD p.1 ""
    { p.2 with
      text := t
      is_correct := p.1 == correct_idx
      explanation := explain_choice (p.1 == correct_idx) t stem }

/-- The choice-related portion of the per-item body of
`build_choices_and_explanations.py::main`: guard the stem, require exactly
5 choices, relabel, synthesize texts/flags/rationales, dedup rationales.
`.error` models the raised `ValueError`. -/
def process_item (shuffle : List String → List String) (stem : String)
    (choices : List InChoice) : Except String (List InChoice) :=
  if stem == "" || is_placeholder stem then
    .error "stem missing or still placeholder"
  else if choices.length ≠ 5 then
    .error "expected 5 choices"
  else
    .ok (dedup_explanations []
      (fill_choices (build_choice_set shuffle (pick_discipline_hint stem)).1
        (build_choice_set shuffle (pick_discipline_hint stem)).2 stem
        (ensure_choice_labels choices)))

/-! ### Concrete inputs used by witnesses and counterexamples -/

/-- A failing Europe PMC response (HTTP 404). -/
def respFailEPMC : Resp := ⟨404, [], "epmc-url"⟩

/-- A succeeding NCBI efetch response with valid XML. -/
def respOkNCBI : Resp := ⟨200, strB "<article>demo</article>", "ncbi-url"⟩

/-- A succeeding PMC site response with valid XML. -/
def respOkSite : Resp := ⟨200, strB "<article>site</article>", "site-url"⟩

/-- Environment: Europe PMC fails, the other two succeed. -/
def envW : Provider → Resp
  | .EuropePMC => respFailEPMC
  | .NCBIefetch => respOkNCBI
  | .PMCsite => respOkSite

/-- HTTP 200 payload whose first bytes contain both `<html` and `<article`. -/
def htmlArticleResp : Resp := ⟨200, strB "<html><article>", "u"⟩

/-- HTTP 200 payload that is a pure HTML error page. -/
def htmlOnlyResp : Resp := ⟨200, strB "<html><body>err</body></html>", "u2"⟩

/-- A paragraph element. -/
def wPara : Elem := .mk "p" "Hello  world" [] ""

/-- A body element containing one paragraph. -/
def wBodyElem : Elem := .mk "body" " " [wPara] ""

/-- A body element with no paragraph descendants. -/
def wBodyNoP : Elem := .mk "body" "  flat body text " [.mk "fig" "caption" [] " tail"] ""

/-- An article with a body containing a paragraph. -/
def wRoot : Elem := .mk "article" "" [wBodyElem] ""

/-- An article whose body has no paragraphs. -/
def wRootNoP : Elem := .mk "article" "" [wBodyNoP] ""

/-- A blank input choice, as found in the step-1 stem batch. -/
def wChoice : InChoice := ⟨"", "", false, ""⟩

/-- A stem with no placeholder marker. -/
def wStem : String := "A 23-year-old man presents with fever"

/-- Five blank input choices. -/
def wChoices : List InChoice := List.replicate 5 wChoice

/-- The synthesized choices for `wStem`/`wChoices` under the identity
shuffle. -/
def wFilled : List InChoice :=
  (process_item (fun l => l) wStem wChoices).toOption.getD []

/-- A structurally valid input choice list (4 choices, second correct). -/
def wInChoices : List InChoice :=
  [⟨"A", "t1", false, "e1"⟩, ⟨"B", "t2", true, "e2"⟩,
   ⟨"C", "t3", false, "e3"⟩, ⟨"D", "t4", false, "e4"⟩]

/-- A ready item with a null prompt and difficulty 1. -/
def wInItem : InItem :=
  { question :=
      { stem := "s", difficulty := some 1, prompt := none, bibliography := none,
        educational_blocks := ⟨none, some "b", none⟩ }
    choices := wInChoices }

/-- A ready item with no difficulty field. -/
def wInItemNoDiff : InItem :=
  { question :=
      { stem := "s", difficulty := none, prompt := none, bibliography := none,
        educational_blocks := ⟨none, some "b", none⟩ }
    choices := wInChoices }

/-! ## Theorems -/

/-- C2: Quality classification is a pure total function of the two word
counts: body count ≥ 200 gives the full-text tier (`OK_FULLTEXT` /
`body_text_available`); otherwise abstract or body count ≥ 80 gives the
short-text tier; otherwise the too-little-text tier; with the stated
behaviour at the 79/80 and 199/200 boundaries. -/
theorem C2_quality_classification (a b : Nat) :
    (200 ≤ b →
      audit_classify a b = "OK_FULLTEXT" ∧
      summarize_quality a b = "body_text_available") ∧
    (b < 200 → 80 ≤ a ∨ 80 ≤ b →
      audit_classify a b = "SHORT_TEXT" ∧
      summarize_quality a b = "abstract_only_or_short_body") ∧
    (a < 80 → b < 80 →
      audit_classify a b = "TOO_LITTLE_TEXT" ∧
      summarize_quality a b = "too_little_text") ∧
    (audit_classify 79 0 = "TOO_LITTLE_TEXT" ∧ audit_classify 80 0 = "SHORT_TEXT" ∧
      audit_classify 0 199 = "SHORT_TEXT" ∧ audit_classify 0 200 = "OK_FULLTEXT") := by
  refine ⟨fun h => ?_, fun h1 h2 => ?_, fun h1 h2 => ?_, by decide⟩
  · rw [audit_classify, if_pos h, summarize_quality, if_pos h]
    exact ⟨rfl, rfl⟩
  · have hb : ¬ (200 ≤ b) := by omega
    rw [audit_classify, if_neg hb, if_pos h2, summarize_quality, if_neg hb, if_pos h2]
    exact ⟨rfl, rfl⟩
  · have hb : ¬ (200 ≤ b) := by omega
    have hs : ¬ (80 ≤ a ∨ 80 ≤ b) := by omega
    rw [audit_classify, if_neg hb, if_neg hs, summarize_quality, if_neg hb, if_neg hs]
    exact ⟨rfl, rfl⟩

/-- Witness for C2 at the four boundary inputs. -/
theorem C2_quality_classification_witness :
    (audit_classify 0 200 = "OK_FULLTEXT" ∧
      summarize_quality 0 200 = "body_text_available") ∧
    (audit_classify 80 0 = "SHORT_TEXT" ∧
      summarize_quality 80 0 = "abstract_only_or_short_body") ∧
    (audit_classify 79 0 = "TOO_LITTLE_TEXT" ∧
      summarize_quality 79 0 = "too_little_text") :=
  ⟨(C2_quality_classification 0 200).1 (by omega),
   (C2_quality_classification 80 0).2.1 (by omega) (Or.inl (by omega)),
   (C2_quality_classification 79 0).2.2.1 (by omega) (by omega)⟩

/-- C10: `map_difficulty` is total over all integers: every `n ≤ 2`
(including 0 and negatives) maps to `easy`, exactly `n = 3` to `medium`,
every `n ≥ 4` to `hard`; and a missing difficulty field defaults to 3 and
therefore maps to `medium`. -/
theorem C10_difficulty_mapping (n : Int) (item : InItem) :
    (n ≤ 2 → map_difficulty n = "easy") ∧
    (n = 3 → map_difficulty n = "medium") ∧
    (4 ≤ n → map_difficulty n = "hard") ∧
    (item.question.difficulty = none → (convert_item item).difficulty = "medium") := by
  refine ⟨fun h => ?_, fun h => ?_, fun h => ?_, fun h => ?_⟩
  · rw [map_difficulty, if_pos h]
  · have h2 : ¬ (n ≤ 2) := by omega
    rw [map_difficulty, if_neg h2, if_pos h]
  · have h2 : ¬ (n ≤ 2) := by omega
    have h3 : ¬ (n = 3) := by omega
    rw [map_difficulty, if_neg h2, if_neg h3]
  · simp only [convert_item, h, Option.getD_none]
    rfl

/-- Witness for C10 at `n = -5`, `n = 3`, `n = 7`, and an item with no
difficulty field. -/
theorem C10_difficulty_mapping_witness :
    map_difficulty (-5) = "easy" ∧ map_difficulty 3 = "medium" ∧
    map_difficulty 7 = "hard" ∧ (convert_item wInItemNoDiff).difficulty = "medium" :=
  ⟨(C10_difficulty_mapping (-5) wInItemNoDiff).1 (by omega),
   (C10_difficulty_mapping 3 wInItemNoDiff).2.1 rfl,
   (C10_difficulty_mapping 7 wInItemNoDiff).2.2.1 (by omega),
   (C10_difficulty_mapping 0 wInItemNoDiff).2.2.2 rfl⟩

/-- C8: the reshaper coerces a null/missing `prompt` to the explicit empty
string and otherwise forwards the stripped string, so the output `prompt`
field is always a string, never null. -/
theorem C8_prompt_never_null (item : InItem) :
    (item.question.prompt = none → (convert_item item).prompt = "") ∧
    (∀ s, item.question.prompt = some s → (convert_item item).prompt = stripS s) := by
  constructor
  · intro h
    simp only [convert_item, h]
    rfl
  · intro s h
    simp only [convert_item, h]
    rfl

/-- Witness for C8 on an item whose `prompt` is null. -/
theorem C8_prompt_never_null_witness : (convert_item wInItem).prompt = "" :=
  (C8_prompt_never_null wInItem).1 rfl

/-- C1: when the Europe PMC attempt is not accepted and the NCBI efetch
attempt is accepted, the fetch chain returns the NCBI content with a
provenance message naming NCBI efetch, the PMC site provider is never
invoked (the trace is exactly `[EuropePMC, NCBIefetch]`), and in every
fetch call each provider is attempted at most once. -/
theorem C1_fallback_chain (env : Provider → Resp)
    (hA : accepted .EuropePMC (env .EuropePMC) = false)
    (hB : accepted .NCBIefetch (env .NCBIefetch) = true) :
    fetch_pmc_xml env =
      (some (attemptContent .NCBIefetch (env .NCBIefetch),
             attemptMsg .NCBIefetch (env .NCBIefetch)),
       [Provider.EuropePMC, Provider.NCBIefetch]) ∧
    attemptMsg .NCBIefetch (env .NCBIefetch) =
      "NCBI efetch (" ++ (env .NCBIefetch).url ++ ")" ∧
    ∀ e : Provider → Resp, (fetch_pmc_xml e).2.Nodup := by
  refine ⟨?_, ?_, ?_⟩
  · simp [fetch_pmc_xml, attemptOrder, fetchLoop, hA, hB]
  · have hB' : acceptedTriple (fetch_from_ncbi_efetch (env .NCBIefetch)) = true := hB
    show (fetch_from_ncbi_efetch (env .NCBIefetch)).2.2 = _
    unfold fetch_from_ncbi_efetch at hB' ⊢
    rcases Bool.eq_false_or_eq_true
        ((env .NCBIefetch).status == 200 && !(env .NCBIefetch).content.isEmpty) with h1 | h1
    · rw [if_pos h1] at hB' ⊢
      rcases Bool.eq_false_or_eq_true
          (containsSeq htmlTag (lowerBytes ((env .NCBIefetch).content.take 200))) with h2 | h2
      · rw [if_pos h2] at hB'; simp [acceptedTriple] at hB'
      · rw [if_neg (by simp [h2])]
    · rw [if_neg (by simp [h1])] at hB'; simp [acceptedTriple] at hB'
  · intro e
    cases h1 : accepted .EuropePMC (e .EuropePMC) <;>
      cases h2 : accepted .NCBIefetch (e .NCBIefetch) <;>
        cases h3 : accepted .PMCsite (e .PMCsite) <;>
          simp [fetch_pmc_xml, attemptOrder, fetchLoop, h1, h2, h3]

/-- Witness for C1: Europe PMC answers 404, NCBI efetch answers 200 with
valid XML; the chain returns the NCBI payload and stops. -/
theorem C1_fallback_chain_witness :
    accepted .EuropePMC (envW .EuropePMC) = false ∧
    accepted .NCBIefetch (envW .NCBIefetch) = true ∧
    fetch_pmc_xml envW =
      (some (strB "<article>demo</article>", "NCBI efetch (ncbi-url)"),
       [Provider.EuropePMC, Provider.NCBIefetch]) :=
  ⟨by decide, by decide, by
    rw [(C1_fallback_chain envW (by decide) (by decide)).1]; decide⟩

/-- C3 counterexample: an HTTP 200 Europe PMC payload whose first 200 bytes
contain the HTML tag marker `<html` (followed by `<article`) is accepted,
saved and returned by the fetcher, so the claim "every provider rejects
payloads with an HTML marker in the first 200 bytes" is false. -/
theorem C3_counterexample :
    containsSeq htmlTag (lowerBytes (htmlArticleResp.content.take 200)) = true ∧
    htmlArticleResp.status = 200 ∧ htmlArticleResp.content ≠ [] ∧
    (fetch_from_europe_pmc htmlArticleResp).1 = true ∧
    accepted .EuropePMC htmlArticleResp = true ∧
    fetch_pmc_xml (fun _ => htmlArticleResp) =
      (some (htmlArticleResp.content, "Europe PMC fullTextXML (u)"),
       [Provider.EuropePMC]) := by
  decide

/-- C3 (amended): only the NCBI efetch provider rejects a payload whose
first 200 bytes contain the HTML tag marker — that attempt is classified a
failure and returns no payload even under HTTP 200; for every provider, a
payload that fails the chain's XML validity check on its first 500 bytes is
not accepted. -/
theorem C3_html_rejection (r : Resp)
    (h : containsSeq htmlTag (lowerBytes (r.content.take 200)) = true) :
    (fetch_from_ncbi_efetch r).1 = false ∧
    (fetch_from_ncbi_efetch r).2.1 = none ∧
    accepted .NCBIefetch r = false ∧
    ∀ (p : Provider) (r2 : Resp), is_valid_xml r2.content = false →
      accepted p r2 = false := by
  have hmain : (fetch_from_ncbi_efetch r).1 = false ∧
      (fetch_from_ncbi_efetch r).2.1 = none ∧
      acceptedTriple (fetch_from_ncbi_efetch r) = false := by
    unfold fetch_from_ncbi_efetch
    rcases Bool.eq_false_or_eq_true (r.status == 200 && !r.content.isEmpty) with h1 | h1
    · rw [if_pos h1, if_pos h]; exact ⟨rfl, rfl, rfl⟩
    · rw [if_neg (by simp [h1])]; exact ⟨rfl, rfl, rfl⟩
  refine ⟨hmain.1, hmain.2.1, hmain.2.2, ?_⟩
  intro p r2 hv
  have hE : acceptedTriple (fetch_from_europe_pmc r2) = false := by
    unfold fetch_from_europe_pmc
    split <;> simp [acceptedTriple, hv]
  have hN : acceptedTriple (fetch_from_ncbi_efetch r2) = false := by
    unfold fetch_from_ncbi_efetch
    split <;> (try split) <;> simp [acceptedTriple, hv]
  have hP : acceptedTriple (fetch_from_pmc_site r2) = false := by
    unfold fetch_from_pmc_site
    split <;> simp [acceptedTriple, hv]
  cases p
  · exact hE
  · exact hN
  · exact hP

/-- Witness for C3 (amended) on a pure HTML error payload. -/
theorem C3_html_rejection_witness :
    containsSeq htmlTag (lowerBytes (htmlOnlyResp.content.take 200)) = true ∧
    accepted .NCBIefetch htmlOnlyResp = false :=
  ⟨by decide, (C3_html_rejection htmlOnlyResp (by decide)).2.2.1⟩

/-! #### Helper lemmas about the strip/upper primitives -/

theorem upN_idem (n : Nat) : upN (upN n) = upN n := by
  unfold upN
  split
  · split <;> omega
  · rfl

theorem isWsN_upN (n : Nat) : isWsN (upN n) = isWsN n := by
  unfold upN
  split
  · unfold isWsN
    simp only [decide_eq_decide]
    omega
  · rfl

theorem pyUpper_idem (l : List Nat) : pyUpper (pyUpper l) = pyUpper l := by
  unfold pyUpper
  rw [List.map_map]
  exact List.map_congr_left fun a _ => upN_idem a

theorem dropWhile_head_false {α : Type} {p : α → Bool} :
    ∀ {l : List α} {a : α} {s : List α}, List.dropWhile p l = a :: s → p a = false := by
  intro l
  induction l with
  | nil => intro a s h; simp [List.dropWhile] at h
  | cons x xs ih =>
    intro a s h
    rw [List.dropWhile_cons] at h
    rcases Bool.eq_false_or_eq_true (p x) with hx | hx
    · exact ih (by rwa [if_pos hx] at h)
    · rw [if_neg (by simp [hx])] at h
      cases h
      exact hx

theorem dropWhile_pyStrip (l : List Nat) :
    List.dropWhile isWsN (pyStrip l) = pyStrip l := by
  cases h : pyStrip l with
  | nil => rfl
  | cons a s =>
    unfold pyStrip at h
    obtain ⟨t, ht⟩ := List.rdropWhile_prefix isWsN (List.dropWhile isWsN l)
    have hd : List.dropWhile isWsN l = a :: (s ++ t) := by
      rw [← ht, h, List.cons_append]
    have ha : isWsN a = false := dropWhile_head_false hd
    rw [List.dropWhile_cons, if_neg (by simp [ha])]

theorem pyStrip_idem (l : List Nat) : pyStrip (pyStrip l) = pyStrip l := by
  show List.rdropWhile isWsN (List.dropWhile isWsN (pyStrip l)) = pyStrip l
  rw [dropWhile_pyStrip]
  show List.rdropWhile isWsN (List.rdropWhile isWsN (List.dropWhile isWsN l)) = _
  rw [List.rdropWhile_idempotent]
  rfl

theorem pyStrip_pyUpper (l : List Nat) :
    pyStrip (pyUpper l) = pyUpper (pyStrip l) := by
  have hcomp : (isWsN ∘ upN) = isWsN := funext fun n => isWsN_upN n
  simp only [pyStrip, pyUpper, List.rdropWhile, List.dropWhile_map, hcomp,
    ← List.map_reverse]

theorem stripped_parts (x : List Nat) (h : pyStrip x = x) :
    List.dropWhile isWsN x = x ∧ List.rdropWhile isWsN x = x := by
  have hsub : (List.dropWhile isWsN x).length ≤ x.length :=
    (List.dropWhile_suffix isWsN).length_le
  have hlen : x.length ≤ (List.dropWhile isWsN x).length := by
    conv_lhs => rw [← h]
    exact (List.rdropWhile_prefix isWsN (List.dropWhile isWsN x)).length_le
  have hdw : List.dropWhile isWsN x = x :=
    (List.dropWhile_suffix isWsN).eq_of_length (le_antisymm hsub hlen)
  refine ⟨hdw, ?_⟩
  have h2 := h
  unfold pyStrip at h2
  rwa [hdw] at h2

theorem rdropWhile_append_stripped (l1 l2 : List Nat)
    (h2 : List.rdropWhile isWsN l2 = l2) (hne : l2 ≠ []) :
    List.rdropWhile isWsN (l1 ++ l2) = l1 ++ l2 := by
  have hrev : List.dropWhile isWsN l2.reverse = l2.reverse := by
    have := h2
    unfold List.rdropWhile at this
    rw [← List.reverse_inj, List.reverse_reverse] at this
    exact this
  cases hc : l2.reverse with
  | nil => exact absurd (List.reverse_eq_nil_iff.mp hc) hne
  | cons a s =>
    have ha : isWsN a = false := dropWhile_head_false (by rw [hrev, hc])
    unfold List.rdropWhile
    rw [List.reverse_append, hc, List.cons_append, List.dropWhile_cons,
      if_neg (by simp [ha]), ← List.cons_append, ← hc, List.reverse_append,
      List.reverse_reverse, List.reverse_reverse]

theorem pyStrip_pmc_append (t : List Nat) (h : pyStrip t = t) :
    pyStrip (pmcTag ++ t) = pmcTag ++ t := by
  have hd : List.dropWhile isWsN (pmcTag ++ t) = pmcTag ++ t := by
    show List.dropWhile isWsN (80 :: (77 :: 67 :: t)) = pmcTag ++ t
    rw [List.dropWhile_cons, if_neg (by decide)]
    rfl
  rcases eq_or_ne t [] with rfl | hne
  · show pyStrip [80, 77, 67] = [80, 77, 67]
    decide
  · unfold pyStrip
    rw [hd]
    exact rdropWhile_append_stripped pmcTag t (stripped_parts t h).2 hne

theorem stripped_of_all_nonWs (x : List Nat) (h : ∀ a ∈ x, isWsN a = false) :
    pyStrip x = x := by
  unfold pyStrip
  have hdw : List.dropWhile isWsN x = x := by
    rw [List.dropWhile_eq_self_iff]
    intro hl
    have hg := h _ (List.get_mem x 0 hl)
    simp only [List.get_eq_getElem] at hg
    simp [hg]
  rw [hdw, List.rdropWhile_eq_self_iff]
  intro hl
  simp [h _ (List.getLast_mem hl)]

theorem leadsWith_append (p t : List Nat) : leadsWith p (p ++ t) = true := by
  induction p with
  | nil => rfl
  | cons a ps ih => simp [leadsWith, ih]

theorem leadsWith_pmc_shape :
    ∀ l : List Nat, leadsWith pmcTag l = true → l = 80 :: 77 :: 67 :: l.drop 3
  | [], h => by simp [pmcTag, leadsWith] at h
  | [a], h => by simp [pmcTag, leadsWith] at h
  | [a, b], h => by simp [pmcTag, leadsWith] at h
  | a :: b :: c :: r, h => by
    simp only [pmcTag, leadsWith, Bool.and_eq_true, beq_iff_eq] at h
    obtain ⟨h1, h2, h3, -⟩ := h
    subst h1; subst h2; subst h3
    rfl

theorem pmcStamp_leadsWith (t : List Nat) : leadsWith pmcTag (pmcStamp t) = true := by
  unfold pmcStamp
  rcases Bool.eq_false_or_eq_true (leadsWith pmcTag t) with hlw | hlw
  · rwa [if_pos hlw]
  · rw [if_neg (by simp [hlw])]
    exact leadsWith_append pmcTag t

theorem pmcStamp_ne_nil (t : List Nat) : (pmcStamp t).isEmpty = false := by
  have h := pmcStamp_leadsWith t
  cases hc : pmcStamp t with
  | nil => rw [hc] at h; simp [pmcTag, leadsWith] at h
  | cons a s => rfl

theorem pmcStamp_stripped_upper (t : List Nat) (hs : pyStrip t = t)
    (hu : pyUpper t = t) :
    pyStrip (pmcStamp t) = pmcStamp t ∧ pyUpper (pmcStamp t) = pmcStamp t := by
  unfold pmcStamp
  rcases Bool.eq_false_or_eq_true (leadsWith pmcTag t) with hlw | hlw
  · rw [if_pos hlw]
    exact ⟨hs, hu⟩
  · rw [if_neg (by simp [hlw])]
    constructor
    · exact pyStrip_pmc_append t hs
    · show List.map upN (pmcTag ++ t) = pmcTag ++ t
      rw [List.map_append]
      have : List.map upN pmcTag = pmcTag := by decide
      rw [this]
      show pmcTag ++ pyUpper t = pmcTag ++ t
      rw [hu]

theorem pmcStamp_of_leadsWith (t : List Nat) (h : leadsWith pmcTag t = true) :
    pmcStamp t = t := by
  unfold pmcStamp
  rw [if_pos h]

/-- C5 counterexample: the input `"abc"` is not blank, yet both
normalization variants return `"PMCABC"`, which does not match
`^PMC[0-9]+$`; moreover the `fetch_pmc_xml_full.py` variant maps the blank
input `""` to `"PMC"`, not to the empty string.  (`"abc"` is
`[97, 98, 99]`, `"PMCABC"` is `[80, 77, 67, 65, 66, 67]`.) -/
theorem C5_counterexample :
    isBlank (strB "abc") = false ∧
    normalize_pmcid (strB "abc") = strB "PMCABC" ∧
    normalize_pmcid_audit (strB "abc") = strB "PMCABC" ∧
    canonicalPMC (strB "PMCABC") = false ∧
    isBlank (strB "") = true ∧
    normalize_pmcid (strB "") = strB "PMC" := by
  decide

/-- C5 (amended): the audit-script variant maps blank input to the empty
string (the `fetch_pmc_xml_full.py` variant instead returns `"PMC"`), and
both variants return a canonical `^PMC[0-9]+$` identifier whenever the
stripped, uppercased input minus an optional leading `PMC` marker is a
non-empty digit string. -/
theorem C5_normalization (l : List Nat) :
    (isBlank l = true → normalize_pmcid_audit l = []) ∧
    ((pmcRest (pyUpper (pyStrip l))).isEmpty = false →
      (pmcRest (pyUpper (pyStrip l))).all isDigitN = true →
      canonicalPMC (normalize_pmcid l) = true ∧
      canonicalPMC (normalize_pmcid_audit l) = true) := by
  constructor
  · intro hb
    have h1 : List.dropWhile isWsN l = [] :=
      List.dropWhile_eq_nil_iff.mpr (List.all_eq_true.mp hb)
    have h2 : pyStrip l = [] := by
      unfold pyStrip
      rw [h1]
      rfl
    unfold normalize_pmcid_audit
    rw [h2]
    rfl
  · intro hne hdig
    have hcan : canonicalPMC (pmcStamp (pyUpper (pyStrip l))) = true := by
      unfold pmcStamp
      rcases Bool.eq_false_or_eq_true (leadsWith pmcTag (pyUpper (pyStrip l))) with hlw | hlw
      · rw [if_pos hlw]
        have hr : pmcRest (pyUpper (pyStrip l)) = (pyUpper (pyStrip l)).drop 3 := by
          unfold pmcRest
          rw [if_pos hlw]
        rw [hr] at hne hdig
        unfold canonicalPMC
        rw [hlw, hne, hdig]
        rfl
      · rw [if_neg (by simp [hlw])]
        have hr : pmcRest (pyUpper (pyStrip l)) = pyUpper (pyStrip l) := by
          unfold pmcRest
          rw [if_neg (by simp [hlw])]
        rw [hr] at hne hdig
        unfold canonicalPMC
        have hdrop : (pmcTag ++ pyUpper (pyStrip l)).drop 3 = pyUpper (pyStrip l) :=
          List.drop_left pmcTag (pyUpper (pyStrip l))
        rw [hdrop, leadsWith_append, hne, hdig]
        rfl
    have htne : (pyUpper (pyStrip l)).isEmpty = false := by
      cases hc : pyUpper (pyStrip l) with
      | nil =>
        rw [hc] at hne
        unfold pmcRest at hne
        simp [leadsWith, pmcTag] at hne
      | cons a s => rfl
    refine ⟨hcan, ?_⟩
    unfold normalize_pmcid_audit
    rw [if_neg (by simp [htne])]
    exact hcan

/-- Witness for C5 (amended) at the inputs `"  pmc123 "` (blank-free) and
`"  "` (blank). -/
theorem C5_normalization_witness :
    normalize_pmcid_audit (strB "  ") = [] ∧
    canonicalPMC (normalize_pmcid (strB "  pmc123 ")) = true ∧
    canonicalPMC (normalize_pmcid_audit (strB "  pmc123 ")) = true :=
  ⟨(C5_normalization (strB "  ")).1 (by decide),
   ((C5_normalization (strB "  pmc123 ")).2 (by decide) (by decide)).1,
   ((C5_normalization (strB "  pmc123 ")).2 (by decide) (by decide)).2⟩

/-- C6: both `normalize_pmcid` variants are idempotent; when the stripped,
uppercased input lacks the `PMC` marker, normalization prepends it exactly
once; and a canonical `^PMC[0-9]+$` identifier is returned unchanged. -/
theorem C6_normalize_idempotent (l : List Nat) :
    normalize_pmcid (normalize_pmcid l) = normalize_pmcid l ∧
    normalize_pmcid_audit (normalize_pmcid_audit l) = normalize_pmcid_audit l ∧
    (leadsWith pmcTag (pyUpper (pyStrip l)) = false →
      normalize_pmcid l = pmcTag ++ pyUpper (pyStrip l)) ∧
    (canonicalPMC l = true →
      normalize_pmcid l = l ∧ normalize_pmcid_audit l = l) := by
  have hstript : pyStrip (pyUpper (pyStrip l)) = pyUpper (pyStrip l) := by
    rw [pyStrip_pyUpper, pyStrip_idem]
  have hupt : pyUpper (pyUpper (pyStrip l)) = pyUpper (pyStrip l) := pyUpper_idem _
  obtain ⟨hps, hpu⟩ := pmcStamp_stripped_upper (pyUpper (pyStrip l)) hstript hupt
  refine ⟨?_, ?_, ?_, ?_⟩
  · show normalize_pmcid (pmcStamp (pyUpper (pyStrip l))) = _
    unfold normalize_pmcid
    rw [hps, hpu]
    rw [pmcStamp_of_leadsWith _ (pmcStamp_leadsWith _)]
  · rcases Bool.eq_false_or_eq_true (pyUpper (pyStrip l)).isEmpty with hemp | hemp
    · have e : normalize_pmcid_audit l = [] := by
        unfold normalize_pmcid_audit
        rw [if_pos hemp]
      rw [e]
      rfl
    · have e : normalize_pmcid_audit l = pmcStamp (pyUpper (pyStrip l)) := by
        unfold normalize_pmcid_audit
        rw [if_neg (by simp [hemp])]
      rw [e]
      unfold normalize_pmcid_audit
      rw [hps, hpu, if_neg (by simp [pmcStamp_ne_nil (pyUpper (pyStrip l))]),
        pmcStamp_of_leadsWith _ (pmcStamp_leadsWith _)]
  · intro hlw
    unfold normalize_pmcid pmcStamp
    rw [if_neg (by simp [hlw])]
  · intro hcan
    unfold canonicalPMC at hcan
    simp only [Bool.and_eq_true] at hcan
    obtain ⟨⟨hled, hne3⟩, hdig⟩ := hcan
    have hall : ∀ a ∈ l, isWsN a = false ∧ upN a = a := by
      intro a ha
      have hsh := leadsWith_pmc_shape l hled
      rw [hsh] at ha
      simp only [List.mem_cons] at ha
      rcases ha with rfl | rfl | rfl | ha
      · exact ⟨by decide, by decide⟩
      · exact ⟨by decide, by decide⟩
      · exact ⟨by decide, by decide⟩
      · have hd := List.all_eq_true.mp hdig a ha
        unfold isDigitN at hd
        have hd' := of_decide_eq_true hd
        constructor
        · unfold isWsN
          exact decide_eq_false (by omega)
        · unfold upN
          rw [if_neg (by omega)]
    have hstrip : pyStrip l = l := stripped_of_all_nonWs l fun a ha => (hall a ha).1
    have hup : pyUpper l = l := by
      unfold pyUpper
      have : List.map upN l = List.map id l :=
        List.map_congr_left fun a ha => (hall a ha).2
      rw [this, List.map_id]
    have hmain : normalize_pmcid l = l := by
      unfold normalize_pmcid
      rw [hstrip, hup]
      exact pmcStamp_of_leadsWith l hled
    refine ⟨hmain, ?_⟩
    have hlne : l.isEmpty = false := by
      cases l with
      | nil => simp [pmcTag, leadsWith] at hled
      | cons a s => rfl
    unfold normalize_pmcid_audit
    rw [hstrip, hup, if_neg (by simp [hlne])]
    exact pmcStamp_of_leadsWith l hled

/-- Witness for C6 at `" pmc123 "`, `"123"` (marker missing) and
`"PMC77"` (canonical). -/
theorem C6_normalize_idempotent_witness :
    normalize_pmcid (normalize_pmcid (strB " pmc123 ")) =
      normalize_pmcid (strB " pmc123 ") ∧
    normalize_pmcid (strB "123") = pmcTag ++ pyUpper (pyStrip (strB "123")) ∧
    normalize_pmcid (strB "PMC77") = strB "PMC77" :=
  ⟨(C6_normalize_idempotent (strB " pmc123 ")).1,
   (C6_normalize_idempotent (strB "123")).2.2.1 (by decide),
   ((C6_normalize_idempotent (strB "PMC77")).2.2.2 (by decide)).1⟩

/-- C4: body-text extraction follows the exact fallback order: paragraphs
under a body node when both exist; the body containers' flattened text when
a body exists without paragraph descendants; paragraphs under generic
section nodes when no body exists; and the empty string (not an error)
when none of these match. -/
theorem C4_body_extraction (root : Elem) :
    ((findallDesc "body" root).isEmpty = false →
      ((findallDesc "body" root).flatMap fun b => findallDesc "p" b).isEmpty = false →
      find_body_paragraphs root =
        collect_text_from_nodes
          ((findallDesc "body" root).flatMap fun b => findallDesc "p" b)) ∧
    ((findallDesc "body" root).isEmpty = false →
      ((findallDesc "body" root).flatMap fun b => findallDesc "p" b).isEmpty = true →
      find_body_paragraphs root = collect_text_from_nodes (findallDesc "body" root)) ∧
    ((findallDesc "body" root).isEmpty = true →
      (findallDesc "sec" root).isEmpty = false →
      ((findallDesc "sec" root).flatMap fun sc => findallDesc "p" sc).isEmpty = false →
      find_body_paragraphs root =
        collect_text_from_nodes
          ((findallDesc "sec" root).flatMap fun sc => findallDesc "p" sc)) ∧
    ((findallDesc "body" root).isEmpty = true →
      ((findallDesc "sec" root).isEmpty = true ∨
        ((findallDesc "sec" root).flatMap fun sc => findallDesc "p" sc).isEmpty = true) →
      find_body_paragraphs root = "") := by
  refine ⟨fun h1 h2 => ?_, fun h1 h2 => ?_, fun h1 h2 h3 => ?_, fun h1 h2 => ?_⟩
  · unfold find_body_paragraphs
    simp [h1, h2]
  · unfold find_body_paragraphs
    simp [h1, h2]
  · unfold find_body_paragraphs
    simp [h1, h2, h3]
  · unfold find_body_paragraphs
    rcases h2 with h2 | h2 <;> simp [h1, h2]

/-- Witness for C4 on a tree with body paragraphs and on a tree whose body
has no paragraph descendants. -/
theorem C4_body_extraction_witness :
    ((findallDesc "body" wRoot).isEmpty = false ∧
      ((findallDesc "body" wRoot).flatMap fun b => findallDesc "p" b).isEmpty = false ∧
      find_body_paragraphs wRoot =
        collect_text_from_nodes
          ((findallDesc "body" wRoot).flatMap fun b => findallDesc "p" b)) ∧
    ((findallDesc "body" wRootNoP).isEmpty = false ∧
      ((findallDesc "body" wRootNoP).flatMap fun b => findallDesc "p" b).isEmpty = true ∧
      find_body_paragraphs wRootNoP = collect_text_from_nodes (findallDesc "body" wRootNoP) ∧
      collect_text_from_nodes (findallDesc "body" wRootNoP) ≠ "") :=
  ⟨⟨by rfl, by rfl, (C4_body_extraction wRoot).1 rfl rfl⟩,
   ⟨by rfl, by rfl, (C4_body_extraction wRootNoP).2.1 rfl rfl, by decide⟩⟩

/-! #### Helper lemmas for the reshaper and the choice-synthesis stage -/

theorem str_append_ne_empty_right (a b : String) (h : b.length ≠ 0) :
    a ++ b ≠ "" := by
  intro hc
  have hl := congrArg String.length hc
  rw [String.length_append] at hl
  have h0 : String.length "" = 0 := rfl
  omega

theorem ite_ne_of {c : Prop} [Decidable c] {x y z : String} (hx : x ≠ z)
    (hy : y ≠ z) : (if c then x else y) ≠ z := by
  by_cases h : c
  · rwa [if_pos h]
  · rwa [if_neg h]

set_option maxHeartbeats 2000000 in
theorem wrong_rationale_core_ne_empty (ct sig : String) :
    wrong_rationale_core ct sig ≠ "" := by
  unfold wrong_rationale_core
  repeat' apply ite_ne_of
  all_goals exact str_append_ne_empty_right _ _ (by decide)

theorem wrong_rationale_ne_empty (t s : String) : wrong_rationale t s ≠ "" :=
  wrong_rationale_core_ne_empty _ _

theorem explain_choice_ne_empty (b : Bool) (t s : String) :
    explain_choice b t s ≠ "" := by
  unfold explain_choice
  split
  · decide
  · exact wrong_rationale_ne_empty t s

theorem fill_expl_ne (texts : List String) (ci : Nat) (stem : String)
    (cs : List InChoice) :
    ∀ c ∈ fill_choices texts ci stem cs, c.explanation ≠ "" := by
  intro c hc
  unfold fill_choices at hc
  rcases List.mem_map.mp hc with ⟨p, -, rfl⟩
  exact explain_choice_ne_empty _ _ _

theorem dedup_expl_ne (seen : List String) (cs : List InChoice)
    (h : ∀ c ∈ cs, c.explanation ≠ "") :
    ∀ c ∈ dedup_explanations seen cs, c.explanation ≠ "" := by
  induction cs generalizing seen with
  | nil => intro c hc; simp [dedup_explanations] at hc
  | cons x xs ih =>
    intro c hc
    unfold dedup_explanations at hc
    split at hc
    · rcases List.mem_cons.mp hc with rfl | hmem
      · exact str_append_ne_empty_right _ _ (by decide)
      · exact ih seen (fun d hd => h d (List.mem_cons_of_mem x hd)) c hmem
    · rcases List.mem_cons.mp hc with rfl | hmem
      · exact h c (List.mem_cons_self c xs)
      · exact ih _ (fun d hd => h d (List.mem_cons_of_mem x hd)) c hmem

theorem dedup_fields (seen : List String) (cs : List InChoice) :
    ((dedup_explanations seen cs).map fun c => c.label) = (cs.map fun c => c.label) ∧
    ((dedup_explanations seen cs).map fun c => c.is_correct) =
      (cs.map fun c => c.is_correct) ∧
    (dedup_explanations seen cs).length = cs.length := by
  induction cs generalizing seen with
  | nil => exact ⟨rfl, rfl, rfl⟩
  | cons x xs ih =>
    unfold dedup_explanations
    split
    · exact ⟨by simp [(ih seen).1], by simp [(ih seen).2.1], by simp [(ih seen).2.2]⟩
    · exact ⟨by simp [(ih _).1], by simp [(ih _).2.1], by simp [(ih _).2.2]⟩

theorem countCorrect (cs : List InChoice) :
    (cs.filter fun c => c.is_correct).length =
      ((cs.map fun c => c.is_correct).filter fun b => b).length := by
  induction cs with
  | nil => rfl
  | cons x xs ih =>
    cases hx : x.is_correct <;> simp [List.filter_cons, hx, ih]

theorem convert_main_sound :
    ∀ (items : List InItem) (out : List OutQuestion),
      convert_main items = .ok out →
      ∀ q ∈ out, assert_valid_question q = .ok () := by
  intro items
  induction items with
  | nil =>
    intro out h q hq
    unfold convert_main at h
    injection h with h
    subst h
    simp at hq
  | cons it rest ih =>
    intro out h q hq
    unfold convert_main at h
    cases ha : assert_valid_question (convert_item it) with
    | error e => rw [ha] at h; exact absurd h (by simp)
    | ok u =>
      rw [ha] at h
      cases hr : convert_main rest with
      | error e => rw [hr] at h; exact absurd h (by simp)
      | ok qs =>
        rw [hr] at h
        injection h with h
        subst h
        rcases List.mem_cons.mp hq with rfl | hmem
        · cases u; exact ha
        · exact ih qs hr q hmem

/-- C9: the reshaper's validator accepts exactly the questions with 4-5
choices, exactly one correct choice, pairwise distinct labels and a
non-blank explanation on every choice (raising on any violation), and every
question in a successfully written output batch satisfies the validator. -/
theorem C9_validation (q : OutQuestion) (items : List InItem) (out : List OutQuestion) :
    (assert_valid_question q = .ok () ↔
      (4 ≤ q.choices.length ∧ q.choices.length ≤ 5) ∧
      (q.choices.filter fun c => c.correct).length = 1 ∧
      (q.choices.map fun c => c.label).Nodup ∧
      ∀ c ∈ q.choices, stripS c.explanation ≠ "") ∧
    (convert_main items = .ok out →
      ∀ q2 ∈ out, assert_valid_question q2 = .ok ()) := by
  constructor
  · constructor
    · intro h
      unfold assert_valid_question at h
      by_cases hc1 : 4 ≤ q.choices.length ∧ q.choices.length ≤ 5
      · rw [if_neg (not_not_intro hc1)] at h
        by_cases hc2 : (q.choices.filter fun c => c.correct).length = 1
        · rw [if_neg (not_not_intro hc2)] at h
          by_cases hc3 : (q.choices.map fun c => c.label).dedup.length =
              (q.choices.map fun c => c.label).length
          · rw [if_neg (not_not_intro hc3)] at h
            rcases Bool.eq_false_or_eq_true
                (q.choices.any fun c => stripS c.explanation == "") with hc4 | hc4
            · rw [if_pos hc4] at h
              exact absurd h (by simp)
            · refine ⟨hc1, hc2, ?_, ?_⟩
              · exact List.dedup_eq_self.mp ((List.dedup_sublist _).eq_of_length hc3)
              · intro c hcmem heq
                have hany : (q.choices.any fun c => stripS c.explanation == "") = true :=
                  List.any_eq_true.mpr ⟨c, hcmem, by simp [heq]⟩
                rw [hany] at hc4
                exact absurd hc4 (by simp)
          · rw [if_pos hc3] at h
            exact absurd h (by simp)
        · rw [if_pos hc2] at h
          exact absurd h (by simp)
      · rw [if_pos hc1] at h
        exact absurd h (by simp)
    · intro hcond
      unfold assert_valid_question
      have hc4 : ¬ ((q.choices.any fun c => stripS c.explanation == "") = true) := by
        intro hany
        rcases List.any_eq_true.mp hany with ⟨c, hcmem, hceq⟩
        exact hcond.2.2.2 c hcmem (by simpa using hceq)
      rw [if_neg (not_not_intro hcond.1), if_neg (not_not_intro hcond.2.1),
        if_neg (not_not_intro
          (congrArg List.length (List.dedup_eq_self.mpr hcond.2.2.1))),
        if_neg hc4]
  · exact convert_main_sound items out

/-- Witness for C9: a converted valid item passes the validator and the
whole single-item batch converts successfully. -/
theorem C9_validation_witness :
    assert_valid_question (convert_item wInItem) = Except.ok () ∧
    convert_main [wInItem] = Except.ok [convert_item wInItem] ∧
    (∀ q ∈ [convert_item wInItem], assert_valid_question q = Except.ok ()) :=
  ⟨(C9_validation (convert_item wInItem) [] []).1.mpr
      ⟨by decide, by decide, by decide, by decide⟩,
   by rfl,
   (C9_validation (convert_item wInItem) [wInItem] [convert_item wInItem]).2 (by rfl)⟩

/-- C7: whatever the shuffle, stem and input choices, every choice list
emitted by the synthesis stage has exactly 5 choices, exactly one choice
flagged correct, pairwise distinct labels, and a non-empty rationale on
every choice. -/
theorem C7_choice_invariants (shuffle : List String → List String) (stem : String)
    (choices : List InChoice) (out : List InChoice)
    (h : process_item shuffle stem choices = Except.ok out) :
    out.length = 5 ∧
    (out.filter fun c => c.is_correct).length = 1 ∧
    (out.map fun c => c.label).Nodup ∧
    ∀ c ∈ out, c.explanation ≠ "" := by
  unfold process_item at h
  rcases Bool.eq_false_or_eq_true (stem == "" || is_placeholder stem) with hg1 | hg1
  · rw [if_pos hg1] at h
    exact absurd h (by simp)
  · rw [if_neg (by simp [hg1])] at h
    by_cases hg2 : choices.length ≠ 5
    · rw [if_pos hg2] at h
      exact absurd h (by simp)
    · rw [if_neg hg2] at h
      have h5 : choices.length = 5 := not_not.mp hg2
      injection h with h
      subst h
      rcases choices with - | ⟨c1, - | ⟨c2, - | ⟨c3, - | ⟨c4, - | ⟨c5, rest⟩⟩⟩⟩⟩ <;>
        simp only [List.length_cons, List.length_nil] at h5 <;> try omega
      rcases rest with - | ⟨c6, rest⟩
      · refine ⟨?_, ?_, ?_, ?_⟩
        · exact ((dedup_fields [] _).2.2).trans (by rfl)
        · rw [countCorrect, (dedup_fields [] _).2.1]
          rfl
        · have hlab : (List.map (fun c => c.label)
              (fill_choices (build_choice_set shuffle (pick_discipline_hint stem)).1
                (build_choice_set shuffle (pick_discipline_hint stem)).2 stem
                (ensure_choice_labels [c1, c2, c3, c4, c5]))) =
              ["A", "B", "C", "D", "E"] := rfl
          rw [(dedup_fields [] _).1, hlab]
          decide
        · exact dedup_expl_ne [] _ (fill_expl_ne _ _ _ _)
      · simp only [List.length_cons] at h5
        omega

/-- Witness for C7: the synthesis succeeds on a placeholder-free stem with
five blank choices, and the output satisfies all four invariants. -/
theorem C7_choice_invariants_witness :
    process_item (fun l => l) wStem wChoices = Except.ok wFilled ∧
    (wFilled.length = 5 ∧
      (wFilled.filter fun c => c.is_correct).length = 1 ∧
      (wFilled.map fun c => c.label).Nodup ∧
      ∀ c ∈ wFilled, c.explanation ≠ "") := by
  have h : process_item (fun l => l) wStem wChoices = Except.ok wFilled := by rfl
  exact ⟨h, C7_choice_invariants (fun l => l) wStem wChoices wFilled h⟩

end Usmle
